import Mathlib

/-!
Verification of the tool-adapter and file-transfer contracts of the
Cognitora / OpenAI-Agents-SDK integration examples.

The Python sources embed three near-identical "tool adapter" functions
(`execute_code` in `1-example-basic-tasks.py`, `execute_code_with_network`
in `4-example-live-crypto-tracker.py`, `execute_python_analysis` in
`5-example-multi-agent-research.py`) and one file-transfer helper
(`download_file_from_sandbox` in `6-example-data-visualization.py`).

Each adapter wraps one remote execute call in a try/except; the remote
behaviour is modelled by `Except String ExecutionResult`: `Except.ok r`
for a normal structured result, `Except.error e` for a raised exception
with message `e`.  The helper's filesystem write is modelled by returning
the bytes that would be written alongside the boolean result.
-/

namespace Cognitora

/-- One unit of captured program output: `{type: "stdout" | "stderr" | ..., data: text}`.
Mirrors the `output_item` objects of `result.data.outputs`. -/
structure OutputItem where
  type : String
  data : String
deriving DecidableEq, Repr

/-- The structured result of a remote execute call: `result.data` in the
Python sources.  `execution_time_ms` is optional, matching
`getattr(result.data, 'execution_time_ms', 0)`. -/
structure ExecutionResult where
  status : String
  outputs : List OutputItem
  execution_time_ms : Option Nat
deriving DecidableEq, Repr

/-- The partitioning loop shared by all adapters:
```
for output_item in result.data.outputs:
    if output_item.type == "stdout":
        output_lines.append(output_item.data)
    elif output_item.type == "stderr":
        error_lines.append(output_item.data)
```
Returns `(output_lines, error_lines)` in original order. -/
def collectOutputs : List OutputItem → List String × List String
  | [] => ([], [])
  | item :: rest =>
    let p := collectOutputs rest
    if item.type == "stdout" then (item.data :: p.1, p.2)
    else if item.type == "stderr" then (p.1, item.data :: p.2)
    else p

/-- Model of `execute_code` from `1-example-basic-tasks.py` (lines 78-115), as a pure
function of the remote call's behaviour. -/
def execute_code (remote : Except String ExecutionResult) : String :=
  match remote with
  | Except.error e => "Error executing code: " ++ e
  | Except.ok result =>
    let status := result.status
    if status == "error" || status == "failed" then
      "Execution failed with status: " ++ status
    else
      let output_lines := (collectOutputs result.outputs).1
      let error_lines := (collectOutputs result.outputs).2
      let result_parts : List String :=
        (if output_lines.isEmpty then [] else [String.intercalate "\n" output_lines]) ++
        (if error_lines.isEmpty then []
         else ["Errors:\n" ++ String.intercalate "\n" error_lines])
      if result_parts.isEmpty then
        "Code executed successfully (status: " ++ status ++ ", execution time: " ++
          toString (result.execution_time_ms.getD 0) ++ "ms) but produced no output."
      else
        String.intercalate "\n\n" result_parts

/-- Model of `execute_code_with_network` from `4-example-live-crypto-tracker.py`
(lines 51-97).  Identical to `execute_code` except that the no-output
message omits the execution time. -/
def execute_code_with_network (remote : Except String ExecutionResult) : String :=
  match remote with
  | Except.error e => "Error executing code: " ++ e
  | Except.ok result =>
    let status := result.status
    if status == "error" || status == "failed" then
      "Execution failed with status: " ++ status
    else
      let output_lines := (collectOutputs result.outputs).1
      let error_lines := (collectOutputs result.outputs).2
      let result_parts : List String :=
        (if output_lines.isEmpty then [] else [String.intercalate "\n" output_lines]) ++
        (if error_lines.isEmpty then []
         else ["Errors:\n" ++ String.intercalate "\n" error_lines])
      if result_parts.isEmpty then
        "Code executed successfully (status: " ++ status ++ ") but produced no output."
      else
        String.intercalate "\n\n" result_parts

/-- Model of `execute_python_analysis` from `5-example-multi-agent-research.py`
(lines 49-122).  Same partitioning, but the parts are joined with a single
newline and prefixed with a success banner. -/
def execute_python_analysis (remote : Except String ExecutionResult) : String :=
  match remote with
  | Except.error e => "❌ Execution failed: " ++ e
  | Except.ok result =>
    let status := result.status
    if status == "error" || status == "failed" then
      "❌ Execution failed with status: " ++ status
    else
      let output_lines := (collectOutputs result.outputs).1
      let error_lines := (collectOutputs result.outputs).2
      let result_parts : List String :=
        (if output_lines.isEmpty then [] else [String.intercalate "\n" output_lines]) ++
        (if error_lines.isEmpty then []
         else ["Errors:\n" ++ String.intercalate "\n" error_lines])
      if result_parts.isEmpty then
        "⚠️ Code executed but no output captured. Make sure to use print() statements!"
      else
        "✅ Analysis complete:\n" ++ String.intercalate "\n" result_parts

/-- Predicate: `s` occurs as a contiguous substring of `t`. -/
def strContains (t s : String) : Prop := ∃ pre post, t = pre ++ s ++ post

/-- A status outside `{error, failed}` makes the failing test of every
adapter evaluate to `false`. -/
lemma nonfail_cond {status : String} (h1 : status ≠ "error") (h2 : status ≠ "failed") :
    (status == "error" || status == "failed") = false := by
  simp [h1, h2]

/-- The partitioning loop yields two empty lists exactly when no item of the
outputs sequence is tagged `stdout` or `stderr`. -/
lemma collectOutputs_nil_iff (outs : List OutputItem) :
    collectOutputs outs = ([], []) ↔
      ∀ item ∈ outs, item.type ≠ "stdout" ∧ item.type ≠ "stderr" := by
  induction outs with
  | nil => simp [collectOutputs]
  | cons item rest ih =>
    by_cases hs : item.type = "stdout"
    · simp [collectOutputs, hs]
    · by_cases he : item.type = "stderr"
      · simp [collectOutputs, hs, he]
      · simp [collectOutputs, hs, he, ih]

end Cognitora

namespace Cognitora

/-- Claim C1. For every `ExecutionResult` whose status is `"error"` or
`"failed"`, both `execute_code` and `execute_code_with_network` return the
fixed failure string `"Execution failed with status: " ++ status`: the
returned text contains the status, and it is the same whatever the outputs
sequence holds (so no stdout data from `outputs` is ever incorporated,
whether `outputs` is empty or not). -/
theorem C1_failing_status_suppresses_output (r : ExecutionResult)
    (h : r.status = "error" ∨ r.status = "failed") :
    execute_code (Except.ok r) = "Execution failed with status: " ++ r.status ∧
    strContains (execute_code (Except.ok r)) r.status ∧
    (∀ outs t, execute_code (Except.ok ⟨r.status, outs, t⟩) = execute_code (Except.ok r)) ∧
    execute_code_with_network (Except.ok r) = "Execution failed with status: " ++ r.status ∧
    (∀ outs t, execute_code_with_network (Except.ok ⟨r.status, outs, t⟩) =
        execute_code_with_network (Except.ok r)) := by
  have hc : (r.status == "error" || r.status == "failed") = true := by
    rcases h with h | h <;> simp [h]
  refine ⟨?_, ?_, ?_, ?_, ?_⟩
  · simp [execute_code, hc]
  · exact ⟨"Execution failed with status: ", "", by simp [execute_code, hc]⟩
  · intro outs t; simp [execute_code, hc]
  · simp [execute_code_with_network, hc]
  · intro outs t; simp [execute_code_with_network, hc]

/-- Witness for C1: a failed-status result carrying a stdout item is reported
as the bare failure string, with the stdout data absent. -/
theorem C1_witness :
    execute_code (Except.ok ⟨"error", [⟨"stdout", "secret data"⟩], none⟩) =
      "Execution failed with status: error" ∧
    execute_code_with_network (Except.ok ⟨"failed", [⟨"stdout", "partial"⟩], some 3⟩) =
      "Execution failed with status: failed" := by
  refine ⟨(C1_failing_status_suppresses_output _ (Or.inl rfl)).1, ?_⟩
  exact (C1_failing_status_suppresses_output ⟨"failed", [⟨"stdout", "partial"⟩], some 3⟩
    (Or.inr rfl)).2.2.2.1

/-- Claim C2. `execute_code` is a total function of the remote behaviour: for
every behaviour it returns exactly one string (exceptions are modelled
explicitly, so none can propagate), and when the remote call raises with
message `e` the returned string is `"Error executing code: " ++ e`, which
embeds the exception's message. -/
theorem C2_total_and_embeds_exception (remote : Except String ExecutionResult) :
    (∃! s : String, execute_code remote = s) ∧
    (∀ e, remote = Except.error e →
      execute_code remote = "Error executing code: " ++ e ∧
      strContains (execute_code remote) e) := by
  refine ⟨⟨execute_code remote, rfl, fun _ h => h.symm⟩, ?_⟩
  rintro e rfl
  exact ⟨rfl, "Error executing code: ", "", by simp [execute_code]⟩

/-- Witness for C2 at a concrete raised exception. -/
theorem C2_witness :
    execute_code (Except.error "connection reset") =
      "Error executing code: connection reset" :=
  ((C2_total_and_embeds_exception (Except.error "connection reset")).2
    "connection reset" rfl).1

/-- Claim C3, counterexample. The claim asserts that all three adapter
variants return exactly `"a\nb"` on stdout items `["a", "b"]`; but
`execute_python_analysis` prepends a success banner, so its return value
differs from `"a\nb"` at this concrete input. -/
theorem C3_counterexample :
    execute_python_analysis
        (Except.ok ⟨"completed", [⟨"stdout", "a"⟩, ⟨"stdout", "b"⟩], none⟩) ≠
      "a\nb" := by
  decide

/-- Claim C3, amended. On a non-failing result whose outputs are exactly the
stdout items `["a", "b"]` (no stderr), `execute_code` and
`execute_code_with_network` return `"a\nb"` exactly — order preserved,
newline-joined, no error section, no prefix or suffix — while
`execute_python_analysis` returns the same newline-joined text prefixed
with its fixed banner `"✅ Analysis complete:\n"`. -/
theorem C3_amended (status : String) (t : Option Nat)
    (h1 : status ≠ "error") (h2 : status ≠ "failed") :
    execute_code (Except.ok ⟨status, [⟨"stdout", "a"⟩, ⟨"stdout", "b"⟩], t⟩) = "a\nb" ∧
    execute_code_with_network
        (Except.ok ⟨status, [⟨"stdout", "a"⟩, ⟨"stdout", "b"⟩], t⟩) = "a\nb" ∧
    execute_python_analysis
        (Except.ok ⟨status, [⟨"stdout", "a"⟩, ⟨"stdout", "b"⟩], t⟩) =
      "✅ Analysis complete:\n" ++ "a\nb" := by
  have hc := nonfail_cond h1 h2
  refine ⟨?_, ?_, ?_⟩ <;>
      simp [execute_code, execute_code_with_network, execute_python_analysis, hc,
        collectOutputs, String.intercalate] <;>
    rfl

/-- Witness for C3's amended statement at status `"completed"`. -/
theorem C3_witness :
    execute_code
        (Except.ok ⟨"completed", [⟨"stdout", "a"⟩, ⟨"stdout", "b"⟩], none⟩) = "a\nb" :=
  (C3_amended "completed" none (by decide) (by decide)).1

/-- Claim C4. On a non-failing result whose outputs sequence holds no stdout
and no stderr item, `execute_code` returns the success message stating that
no output was produced; the message contains the status and the execution
time (`getattr(result.data, 'execution_time_ms', 0)`). -/
theorem C4_empty_outputs_message (r : ExecutionResult)
    (h1 : r.status ≠ "error") (h2 : r.status ≠ "failed")
    (hout : ∀ item ∈ r.outputs, item.type ≠ "stdout" ∧ item.type ≠ "stderr") :
    execute_code (Except.ok r) =
      "Code executed successfully (status: " ++ r.status ++ ", execution time: " ++
        toString (r.execution_time_ms.getD 0) ++ "ms) but produced no output." ∧
    strContains (execute_code (Except.ok r)) r.status ∧
    strContains (execute_code (Except.ok r)) (toString (r.execution_time_ms.getD 0)) := by
  have hc := nonfail_cond h1 h2
  have hn := (collectOutputs_nil_iff r.outputs).2 hout
  have heq : execute_code (Except.ok r) =
      "Code executed successfully (status: " ++ r.status ++ ", execution time: " ++
        toString (r.execution_time_ms.getD 0) ++ "ms) but produced no output." := by
    simp [execute_code, hc, hn]
  refine ⟨heq, ?_, ?_⟩
  · exact ⟨"Code executed successfully (status: ",
      ", execution time: " ++ toString (r.execution_time_ms.getD 0) ++
        "ms) but produced no output.",
      by rw [heq]; simp [String.append_assoc]⟩
  · exact ⟨"Code executed successfully (status: " ++ r.status ++ ", execution time: ",
      "ms) but produced no output.", by rw [heq]⟩

/-- Witness for C4: a succeeded run with a single non-stdout, non-stderr
output item (type `"display_data"`) yields the no-output message. -/
theorem C4_witness :
    execute_code (Except.ok ⟨"completed", [⟨"display_data", "png..."⟩], some 17⟩) =
      "Code executed successfully (status: completed, execution time: 17ms) " ++
        "but produced no output." := by
  have h := (C4_empty_outputs_message ⟨"completed", [⟨"display_data", "png..."⟩], some 17⟩
    (by decide) (by decide) (by decide)).1
  rw [h]; rfl

/-- Claim C5. On a non-failing result whose partitioned outputs are stdout
`["x"]` and stderr `["boom"]`, `execute_code` returns the stdout block
first, then a blank line, then the error block introduced by the literal
`"Errors:\n"` header and containing `"boom"`. -/
theorem C5_stdout_then_error_block (status : String) (outs : List OutputItem) (t : Option Nat)
    (h1 : status ≠ "error") (h2 : status ≠ "failed")
    (hco : collectOutputs outs = (["x"], ["boom"])) :
    execute_code (Except.ok ⟨status, outs, t⟩) = "x" ++ "\n\n" ++ ("Errors:\n" ++ "boom") ∧
    strContains (execute_code (Except.ok ⟨status, outs, t⟩)) "x" ∧
    strContains (execute_code (Except.ok ⟨status, outs, t⟩)) "boom" ∧
    strContains (execute_code (Except.ok ⟨status, outs, t⟩)) "Errors:\n" := by
  have hc := nonfail_cond h1 h2
  have heq : execute_code (Except.ok ⟨status, outs, t⟩) =
      "x" ++ "\n\n" ++ ("Errors:\n" ++ "boom") := by
    simp [execute_code, hc, hco, String.intercalate]; rfl
  refine ⟨heq, ⟨"", "\n\nErrors:\nboom", by rw [heq]; rfl⟩,
    ⟨"x\n\nErrors:\n", "", by rw [heq]; rfl⟩,
    ⟨"x\n\n", "boom", by rw [heq]; rfl⟩⟩

/-- Witness for C5 at the concrete outputs `[stdout "x", stderr "boom"]`. -/
theorem C5_witness :
    execute_code (Except.ok ⟨"completed", [⟨"stdout", "x"⟩, ⟨"stderr", "boom"⟩], none⟩) =
      "x" ++ "\n\n" ++ ("Errors:\n" ++ "boom") :=
  (C5_stdout_then_error_block "completed" [⟨"stdout", "x"⟩, ⟨"stderr", "boom"⟩] none
    (by decide) (by decide) (by decide)).1

/-- Claim C9. A single stdout item whose data is the empty string makes
`execute_code` return the empty string — not the no-output success message
(the two differ); and the no-output branch condition — both collected
lists empty — holds exactly when the outputs sequence has no stdout and no
stderr item at all. -/
theorem C9_empty_stdout_not_no_output (status : String) (t : Option Nat)
    (h1 : status ≠ "error") (h2 : status ≠ "failed") :
    execute_code (Except.ok ⟨status, [⟨"stdout", ""⟩], t⟩) = "" ∧
    execute_code (Except.ok ⟨status, [⟨"stdout", ""⟩], t⟩) ≠
      "Code executed successfully (status: " ++ status ++ ", execution time: " ++
        toString (t.getD 0) ++ "ms) but produced no output." ∧
    (∀ outs : List OutputItem, collectOutputs outs = ([], []) ↔
      ∀ item ∈ outs, item.type ≠ "stdout" ∧ item.type ≠ "stderr") := by
  have hc := nonfail_cond h1 h2
  have heq : execute_code (Except.ok ⟨status, [⟨"stdout", ""⟩], t⟩) = "" := by
    simp [execute_code, hc, collectOutputs, String.intercalate]; rfl
  refine ⟨heq, ?_, collectOutputs_nil_iff⟩
  rw [heq]
  intro h
  have h' := congrArg String.data h.symm
  simp [String.data_append] at h'

/-- Witness for C9 at status `"completed"`. -/
theorem C9_witness :
    execute_code (Except.ok ⟨"completed", [⟨"stdout", ""⟩], none⟩) = "" :=
  (C9_empty_stdout_not_no_output "completed" none (by decide) (by decide)).1

/-! ## Base64 and the file-transfer helper

`download_file_from_sandbox` in `6-example-data-visualization.py` shells a
file through stdout as base64 between the sentinel lines `BASE64_START` /
`BASE64_END`, then extracts and decodes it locally.  Bytes are modelled as
`Nat` values below 256; the local file write is modelled by returning the
written bytes next to the boolean result. -/

/-- The base64 alphabet character for a 6-bit value.  Models the standard
alphabet used by Python's `base64.b64encode`. -/
def b64chr (n : Nat) : Char :=
  if n < 26 then Char.ofNat ('A'.toNat + n)
  else if n < 52 then Char.ofNat ('a'.toNat + (n - 26))
  else if n < 62 then Char.ofNat ('0'.toNat + (n - 52))
  else if n = 62 then '+'
  else '/'

/-- The 6-bit value of a base64 alphabet character, `none` for characters
outside the alphabet. -/
def b64val (c : Char) : Option Nat :=
  if 'A' ≤ c ∧ c ≤ 'Z' then some (c.toNat - 'A'.toNat)
  else if 'a' ≤ c ∧ c ≤ 'z' then some (c.toNat - 'a'.toNat + 26)
  else if '0' ≤ c ∧ c ≤ '9' then some (c.toNat - '0'.toNat + 52)
  else if c = '+' then some 62
  else if c = '/' then some 63
  else none

/-- Character of the base64 alphabet proper. -/
def isB64Char (c : Char) : Bool := (b64val c).isSome

/-- Character of the base64 alphabet or the padding character `'='`. -/
def isB64Pad (c : Char) : Bool := isB64Char c || c == '='

/-- Modelled from the spec: Python's `base64.b64encode` (the sandbox-side
`base64.b64encode(content).decode('utf-8')` of the helper's generated
code), standard alphabet with `'='` padding, three bytes to four
characters. -/
def b64encode : List Nat → List Char
  | a :: b :: c :: rest =>
    let n := a * 65536 + b * 256 + c
    b64chr (n / 262144) :: b64chr (n / 4096 % 64) :: b64chr (n / 64 % 64) ::
      b64chr (n % 64) :: b64encode rest
  | [a, b] =>
    [b64chr (a / 4), b64chr (a % 4 * 16 + b / 16), b64chr (b % 16 * 4), '=']
  | [a] =>
    [b64chr (a / 4), b64chr (a % 4 * 16), '=', '=']
  | [] => []

/-- Decoding of a padding-free base64 prefix: full quadruples to three
bytes, a trailing pair to one byte, a trailing triple to two bytes, and a
single leftover character is an error. -/
def b64decodeCore : List Char → Option (List Nat)
  | [] => some []
  | [_] => none
  | [a, b] => do
    let x ← b64val a
    let y ← b64val b
    some [(x * 64 + y) / 16]
  | [a, b, c] => do
    let x ← b64val a
    let y ← b64val b
    let z ← b64val c
    let n := x * 4096 + y * 64 + z
    some [n / 1024, n / 4 % 256]
  | a :: b :: c :: d :: rest => do
    let x ← b64val a
    let y ← b64val b
    let z ← b64val c
    let w ← b64val d
    let n := x * 262144 + y * 4096 + z * 64 + w
    let tail ← b64decodeCore rest
    some (n / 65536 :: n / 256 % 256 :: n % 256 :: tail)

/-- Modelled from the spec: Python's `base64.b64decode` with
`validate=False`, as called by the helper — characters outside the
alphabet and padding are discarded, the remaining length must be a
multiple of 4, and decoding stops at the first padding character.
`none` models the raised `binascii.Error`. -/
def b64decode (s : List Char) : Option (List Nat) :=
  let t := s.filter isB64Pad
  if t.length % 4 = 0 then b64decodeCore (t.takeWhile (fun c => c != '='))
  else none

/-- Position of the first occurrence of `needle` in `hay`
(Python's `str.index` / the `in` test). -/
def firstIndexOf? (needle : List Char) : List Char → Option Nat
  | [] => if needle.isPrefixOf ([] : List Char) then some 0 else none
  | c :: rest =>
    if needle.isPrefixOf (c :: rest) then some 0
    else (firstIndexOf? needle rest).map (· + 1)

/-- Python's `needle in hay` substring test. -/
def strIn (needle hay : List Char) : Bool := (firstIndexOf? needle hay).isSome

/-- Python's `str.strip()` restricted to the whitespace characters that can
occur here. -/
def pyStrip (l : List Char) : List Char :=
  ((l.dropWhile Char.isWhitespace).reverse.dropWhile Char.isWhitespace).reverse

/-- The sentinel line opening the base64 payload. -/
def sentStart : List Char := "BASE64_START".data

/-- The sentinel line closing the base64 payload. -/
def sentEnd : List Char := "BASE64_END".data

/-- The sandbox-side message for a missing file. -/
def errNotFound : List Char := "ERROR: File not found".data

/-- The scanning loop of `download_file_from_sandbox` (lines 138-161 of
`6-example-data-visualization.py`) over the outputs sequence.  The first
component is the returned boolean; the second is the bytes written to
`local_path` (`none` when nothing is written).  A `none` from `b64decode`
models the `binascii.Error` that the enclosing `except` turns into
`False`. -/
def downloadScan : List OutputItem → Bool × Option (List Nat)
  | [] => (false, none)
  | item :: rest =>
    if item.type == "stdout" then
      let output := item.data.data
      if strIn errNotFound output then (false, none)
      else if strIn sentStart output && strIn sentEnd output then
        let start := (firstIndexOf? sentStart output).getD 0 + sentStart.length
        let stop := (firstIndexOf? sentEnd output).getD 0
        let encoded_content := pyStrip ((output.drop start).take (stop - start))
        match b64decode encoded_content with
        | some bytes => (true, some bytes)
        | none => (false, none)
      else downloadScan rest
    else downloadScan rest

/-- Model of `download_file_from_sandbox` from `6-example-data-visualization.py`
(lines 104-165), as a pure function of the remote execute call's
behaviour: the try/except wraps the whole body, so a raised exception
yields `False` with no write. -/
def download_file_from_sandbox (remote : Except String ExecutionResult) :
    Bool × Option (List Nat) :=
  match remote with
  | Except.error _ => (false, none)
  | Except.ok result => downloadScan result.outputs

/-- The stdout text printed by the helper's sandbox-side code on success:
the payload wrapped between the sentinel lines. -/
def wrapPayload (enc : List Char) : List Char :=
  sentStart ++ '\n' :: enc ++ '\n' :: sentEnd

/-- Lemma: `b64chr` is a section of `b64val` on 6-bit values. -/
lemma b64val_b64chr : ∀ n < 64, b64val (b64chr n) = some n := by decide

/-- Lemma: `b64chr` lands in the base64 alphabet. -/
lemma isB64Pad_b64chr : ∀ n < 64, isB64Pad (b64chr n) = true := by decide

/-- Every character emitted by the encoder is an alphabet character or
padding. -/
lemma b64encode_mem (bs : List Nat) (hb : ∀ x ∈ bs, x < 256) :
    ∀ c ∈ b64encode bs, isB64Pad c = true := by
  induction bs using b64encode.induct with
  | case1 a b c rest ih =>
    intro x hx
    have ha : a < 256 := hb a (by simp)
    have hbb : b < 256 := hb b (by simp)
    have hcc : c < 256 := hb c (by simp)
    simp only [b64encode, List.mem_cons] at hx
    rcases hx with rfl | rfl | rfl | rfl | hx
    · exact isB64Pad_b64chr _ (by omega)
    · exact isB64Pad_b64chr _ (by omega)
    · exact isB64Pad_b64chr _ (by omega)
    · exact isB64Pad_b64chr _ (by omega)
    · exact ih (fun y hy => hb y (by simp [hy])) x hx
  | case2 a b =>
    intro x hx
    have ha : a < 256 := hb a (by simp)
    have hbb : b < 256 := hb b (by simp)
    simp only [b64encode, List.mem_cons] at hx
    rcases hx with rfl | rfl | rfl | rfl | hx
    · exact isB64Pad_b64chr _ (by omega)
    · exact isB64Pad_b64chr _ (by omega)
    · exact isB64Pad_b64chr _ (by omega)
    · rfl
    · simp at hx
  | case3 a =>
    intro x hx
    have ha : a < 256 := hb a (by simp)
    simp only [b64encode, List.mem_cons] at hx
    rcases hx with rfl | rfl | rfl | rfl | hx
    · exact isB64Pad_b64chr _ (by omega)
    · exact isB64Pad_b64chr _ (by omega)
    · rfl
    · rfl
    · simp at hx
  | case4 => intro x hx; simp [b64encode] at hx

/-- The encoder's output length is a multiple of four. -/
lemma b64encode_length (bs : List Nat) : (b64encode bs).length % 4 = 0 := by
  induction bs using b64encode.induct with
  | case1 a b c rest ih => simp [b64encode]; omega
  | case2 a b => simp [b64encode]
  | case3 a => simp [b64encode]
  | case4 => simp [b64encode]

/-- Alphabet characters are not the padding character. -/
lemma b64chr_ne_pad : ∀ n < 64, (b64chr n != '=') = true := by decide

/-- Lemma: `takeWhile` on a non-padding head keeps it. -/
lemma takeWhile_ne_pad_cons (c : Char) (l : List Char) (h : (c != '=') = true) :
    (c :: l).takeWhile (fun c => c != '=') = c :: l.takeWhile (fun c => c != '=') := by
  simp [List.takeWhile_cons, h]

/-- Lemma: `takeWhile` stops at the padding character. -/
lemma takeWhile_pad_cons (l : List Char) :
    ('=' :: l).takeWhile (fun c => c != '=') = [] := by
  simp [List.takeWhile_cons]

/-- Decoding the padding-free prefix of the encoder's output recovers the
bytes. -/
lemma b64decodeCore_takeWhile (bs : List Nat) (hb : ∀ x ∈ bs, x < 256) :
    b64decodeCore ((b64encode bs).takeWhile (fun c => c != '=')) = some bs := by
  induction bs using b64encode.induct with
  | case1 a b c rest ih =>
    have ha : a < 256 := hb a (by simp)
    have hbb : b < 256 := hb b (by simp)
    have hcc : c < 256 := hb c (by simp)
    have n4 : a * 65536 + b * 256 + c < 16777216 := by omega
    simp only [b64encode]
    rw [takeWhile_ne_pad_cons _ _ (b64chr_ne_pad _ (by omega)),
      takeWhile_ne_pad_cons _ _ (b64chr_ne_pad _ (by omega)),
      takeWhile_ne_pad_cons _ _ (b64chr_ne_pad _ (by omega)),
      takeWhile_ne_pad_cons _ _ (b64chr_ne_pad _ (by omega))]
    simp only [b64decodeCore,
      b64val_b64chr _ (by omega : (a * 65536 + b * 256 + c) / 262144 < 64),
      b64val_b64chr _ (by omega : (a * 65536 + b * 256 + c) / 4096 % 64 < 64),
      b64val_b64chr _ (by omega : (a * 65536 + b * 256 + c) / 64 % 64 < 64),
      b64val_b64chr _ (by omega : (a * 65536 + b * 256 + c) % 64 < 64),
      ih (fun y hy => hb y (by simp [hy])), Option.some_bind]
    simp
    omega
  | case2 a b =>
    have ha : a < 256 := hb a (by simp)
    have hbb : b < 256 := hb b (by simp)
    simp only [b64encode]
    rw [takeWhile_ne_pad_cons _ _ (b64chr_ne_pad _ (by omega)),
      takeWhile_ne_pad_cons _ _ (b64chr_ne_pad _ (by omega)),
      takeWhile_ne_pad_cons _ _ (b64chr_ne_pad _ (by omega)),
      takeWhile_pad_cons]
    simp only [b64decodeCore,
      b64val_b64chr _ (by omega : a / 4 < 64),
      b64val_b64chr _ (by omega : a % 4 * 16 + b / 16 < 64),
      b64val_b64chr _ (by omega : b % 16 * 4 < 64), Option.some_bind]
    simp
    omega
  | case3 a =>
    have ha : a < 256 := hb a (by simp)
    simp only [b64encode]
    rw [takeWhile_ne_pad_cons _ _ (b64chr_ne_pad _ (by omega)),
      takeWhile_ne_pad_cons _ _ (b64chr_ne_pad _ (by omega)),
      takeWhile_pad_cons]
    simp only [b64decodeCore,
      b64val_b64chr _ (by omega : a / 4 < 64),
      b64val_b64chr _ (by omega : a % 4 * 16 < 64), Option.some_bind]
    simp
    omega
  | case4 => rfl

/-- Round trip through the modelled Python decoder. -/
lemma b64decode_b64encode (bs : List Nat) (hb : ∀ x ∈ bs, x < 256) :
    b64decode (b64encode bs) = some bs := by
  have hf : (b64encode bs).filter isB64Pad = b64encode bs :=
    List.filter_eq_self.2 (b64encode_mem bs hb)
  simp only [b64decode, hf, b64encode_length bs, if_pos rfl]
  exact b64decodeCore_takeWhile bs hb

/-- A list is a (boolean) prefix of itself followed by anything. -/
lemma isPrefixOf_append_self (l r : List Char) : l.isPrefixOf (l ++ r) = true := by
  induction l with
  | nil => simp [List.isPrefixOf]
  | cons a as ih => simp [List.isPrefixOf, ih]

/-- A boolean prefix yields an append decomposition. -/
lemma isPrefixOf_ex {l₁ l₂ : List Char} (h : l₁.isPrefixOf l₂ = true) :
    ∃ t, l₂ = l₁ ++ t := by
  induction l₁ generalizing l₂ with
  | nil => exact ⟨l₂, rfl⟩
  | cons a as ih =>
    cases l₂ with
    | nil => simp [List.isPrefixOf] at h
    | cons b bs =>
      simp only [List.isPrefixOf, Bool.and_eq_true, beq_iff_eq] at h
      obtain ⟨t, ht⟩ := ih h.2
      exact ⟨t, by rw [h.1, ht]; rfl⟩

/-- The match at the front: first index zero. -/
lemma firstIndexOf?_zero {needle hay : List Char} (h : needle.isPrefixOf hay = true) :
    firstIndexOf? needle hay = some 0 := by
  cases hay with
  | nil => simp [firstIndexOf?, h]
  | cons c rest => simp [firstIndexOf?, h]

/-- Stepping the search past a non-matching head. -/
lemma firstIndexOf?_cons_of_neg (needle : List Char) (c : Char) (hay : List Char)
    (h : needle.isPrefixOf (c :: hay) = false) :
    firstIndexOf? needle (c :: hay) = (firstIndexOf? needle hay).map (· + 1) := by
  simp [firstIndexOf?, h]

/-- Any character of a found needle occurs in the haystack. -/
lemma strIn_mem {needle : List Char} :
    ∀ {hay : List Char}, strIn needle hay = true → ∀ c ∈ needle, c ∈ hay := by
  intro hay
  induction hay with
  | nil =>
    intro h c hc
    rcases Bool.eq_false_or_eq_true (needle.isPrefixOf []) with hp | hp
    · cases needle with
      | nil => simp at hc
      | cons a as => simp [List.isPrefixOf] at hp
    · simp [strIn, firstIndexOf?, hp] at h
  | cons x rest ih =>
    intro h c hc
    rcases Bool.eq_false_or_eq_true (needle.isPrefixOf (x :: rest)) with hp | hp
    · obtain ⟨t, ht⟩ := isPrefixOf_ex hp
      rw [ht]
      exact List.mem_append.2 (Or.inl hc)
    · rw [strIn, firstIndexOf?_cons_of_neg needle x rest hp] at h
      have : strIn needle rest = true := by
        rcases hfi : firstIndexOf? needle rest with _ | i
        · rw [hfi] at h; simp at h
        · simp [strIn, hfi]
      exact List.mem_cons_of_mem x (ih this c hc)

/-- An alphabet-or-padding character is not whitespace. -/
lemma b64_not_ws (c : Char) (h : isB64Pad c = true) : c.isWhitespace = false := by
  by_cases h1 : c = ' '
  · subst h1; exact absurd h (by decide)
  by_cases h2 : c = '\t'
  · subst h2; exact absurd h (by decide)
  by_cases h3 : c = '\r'
  · subst h3; exact absurd h (by decide)
  by_cases h4 : c = '\n'
  · subst h4; exact absurd h (by decide)
  simp [Char.isWhitespace, h1, h2, h3, h4]

/-- Lemma: `dropWhile isWhitespace` is the identity on lists of alphabet-or-padding
characters. -/
lemma dropWhile_ws_b64 (l : List Char) (h : ∀ c ∈ l, isB64Pad c = true) :
    l.dropWhile Char.isWhitespace = l := by
  cases l with
  | nil => rfl
  | cons c rest =>
    rw [List.dropWhile_cons, b64_not_ws c (h c (by simp))]
    simp


/-- Lemma: `sentEnd` cannot begin strictly inside the payload region: its
underscore would have to land on an alphabet character, the newline, or an
early character of the closing sentinel. -/
lemma sentEnd_ne_mid (c : Char) (enc : List Char) (h : ∀ x ∈ enc, isB64Pad x = true) :
    sentEnd.isPrefixOf (c :: (enc ++ '\n' :: sentEnd)) = false := by
  rcases Bool.eq_false_or_eq_true (sentEnd.isPrefixOf (c :: (enc ++ '\n' :: sentEnd)))
    with hp | hp
  · exfalso
    obtain ⟨t, ht⟩ := isPrefixOf_ex hp
    have ht' : c :: (enc ++ '\n' :: sentEnd) = 'B' :: ("ASE64_END".data ++ t) := ht
    have htail : enc ++ '\n' :: sentEnd = "ASE64_END".data ++ t := (List.cons.injEq _ _ _ _ ▸ ht').2
    have h5r : ("ASE64_END".data ++ t)[5]? = some '_' := by
      rw [List.getElem?_append_left (by decide : (5:Nat) < "ASE64_END".data.length)]
      decide
    rw [← htail] at h5r
    rcases Nat.lt_or_ge 5 enc.length with hl | hl
    · rw [List.getElem?_append_left hl] at h5r
      have hmem : '_' ∈ enc := by
        obtain ⟨hb, he⟩ := List.getElem?_eq_some_iff.1 h5r
        exact he ▸ List.getElem_mem hb
      exact absurd (h _ hmem) (by decide)
    · rw [List.getElem?_append_right hl] at h5r
      obtain ⟨k, hk⟩ : ∃ k, 5 - enc.length = k := ⟨_, rfl⟩
      rw [hk] at h5r
      have hk5 : k ≤ 5 := by omega
      interval_cases k <;> exact absurd h5r (by decide)
  · exact hp

/-- Position of the closing sentinel in the payload-plus-tail region. -/
lemma firstIndexOf?_sentEnd_core (enc : List Char) (h : ∀ x ∈ enc, isB64Pad x = true) :
    firstIndexOf? sentEnd (enc ++ '\n' :: sentEnd) = some (enc.length + 1) := by
  induction enc with
  | nil =>
    rw [List.nil_append,
      firstIndexOf?_cons_of_neg sentEnd '\n' sentEnd (by decide),
      firstIndexOf?_zero (by decide)]
    rfl
  | cons c enc ih =>
    have hrest : ∀ x ∈ enc, isB64Pad x = true := fun x hx => h x (by simp [hx])
    rw [List.cons_append,
      firstIndexOf?_cons_of_neg sentEnd c (enc ++ '\n' :: sentEnd) (sentEnd_ne_mid c enc hrest),
      ih hrest]
    simp

/-- Position of the closing sentinel in the full wrapped payload. -/
lemma firstIndexOf?_sentEnd_wrap (enc : List Char) (h : ∀ x ∈ enc, isB64Pad x = true) :
    firstIndexOf? sentEnd (wrapPayload enc) = some (enc.length + 14) := by
  have hw : wrapPayload enc =
      'B' :: 'A' :: 'S' :: 'E' :: '6' :: '4' :: '_' :: 'S' :: 'T' :: 'A' :: 'R' :: 'T' :: '\n' :: (enc ++ '\n' :: sentEnd) := rfl
  rw [hw]
  rw [firstIndexOf?_cons_of_neg sentEnd 'B' ('A' :: 'S' :: 'E' :: '6' :: '4' :: '_' :: 'S' :: 'T' :: 'A' :: 'R' :: 'T' :: '\n' :: (enc ++ '\n' :: sentEnd)) rfl]
  rw [firstIndexOf?_cons_of_neg sentEnd 'A' ('S' :: 'E' :: '6' :: '4' :: '_' :: 'S' :: 'T' :: 'A' :: 'R' :: 'T' :: '\n' :: (enc ++ '\n' :: sentEnd)) rfl]
  rw [firstIndexOf?_cons_of_neg sentEnd 'S' ('E' :: '6' :: '4' :: '_' :: 'S' :: 'T' :: 'A' :: 'R' :: 'T' :: '\n' :: (enc ++ '\n' :: sentEnd)) rfl]
  rw [firstIndexOf?_cons_of_neg sentEnd 'E' ('6' :: '4' :: '_' :: 'S' :: 'T' :: 'A' :: 'R' :: 'T' :: '\n' :: (enc ++ '\n' :: sentEnd)) rfl]
  rw [firstIndexOf?_cons_of_neg sentEnd '6' ('4' :: '_' :: 'S' :: 'T' :: 'A' :: 'R' :: 'T' :: '\n' :: (enc ++ '\n' :: sentEnd)) rfl]
  rw [firstIndexOf?_cons_of_neg sentEnd '4' ('_' :: 'S' :: 'T' :: 'A' :: 'R' :: 'T' :: '\n' :: (enc ++ '\n' :: sentEnd)) rfl]
  rw [firstIndexOf?_cons_of_neg sentEnd '_' ('S' :: 'T' :: 'A' :: 'R' :: 'T' :: '\n' :: (enc ++ '\n' :: sentEnd)) rfl]
  rw [firstIndexOf?_cons_of_neg sentEnd 'S' ('T' :: 'A' :: 'R' :: 'T' :: '\n' :: (enc ++ '\n' :: sentEnd)) rfl]
  rw [firstIndexOf?_cons_of_neg sentEnd 'T' ('A' :: 'R' :: 'T' :: '\n' :: (enc ++ '\n' :: sentEnd)) rfl]
  rw [firstIndexOf?_cons_of_neg sentEnd 'A' ('R' :: 'T' :: '\n' :: (enc ++ '\n' :: sentEnd)) rfl]
  rw [firstIndexOf?_cons_of_neg sentEnd 'R' ('T' :: '\n' :: (enc ++ '\n' :: sentEnd)) rfl]
  rw [firstIndexOf?_cons_of_neg sentEnd 'T' ('\n' :: (enc ++ '\n' :: sentEnd)) rfl]
  rw [firstIndexOf?_cons_of_neg sentEnd '\n' ((enc ++ '\n' :: sentEnd)) rfl]
  rw [firstIndexOf?_sentEnd_core enc h]
  simp

/-- Position of the opening sentinel in the full wrapped payload. -/
lemma firstIndexOf?_sentStart_wrap (enc : List Char) :
    firstIndexOf? sentStart (wrapPayload enc) = some 0 :=
  firstIndexOf?_zero (isPrefixOf_append_self sentStart _)

/-- Lemma: `take` across an append, offset by the left length. -/
lemma take_append_len (l₁ l₂ : List Char) (n : Nat) :
    (l₁ ++ l₂).take (l₁.length + n) = l₁ ++ l₂.take n := by
  induction l₁ with
  | nil => simp
  | cons a as ih => simpa [List.take, Nat.succ_add] using ih

end Cognitora

namespace Cognitora

/-- Python's `strip` on the slice `"\n" ++ enc ++ "\n"` recovers the
payload. -/
lemma pyStrip_wrap (enc : List Char) (h : ∀ c ∈ enc, isB64Pad c = true) :
    pyStrip ('\n' :: (enc ++ ['\n'])) = enc := by
  cases enc with
  | nil => decide
  | cons c rest =>
    have hc : c.isWhitespace = false := b64_not_ws c (h c (by simp))
    have hws : '\n'.isWhitespace = true := rfl
    have hrev : ∀ x ∈ (c :: rest).reverse, isB64Pad x = true := by
      intro x hx
      exact h x (List.mem_reverse.1 hx)
    have hrev2 : ∀ x ∈ rest.reverse ++ [c], isB64Pad x = true := by
      intro x hx
      rcases List.mem_append.1 hx with hx | hx
      · exact h x (by simp [List.mem_reverse.1 hx])
      · simp only [List.mem_singleton] at hx
        exact h x (by simp [hx])
    have hrva : (c :: (rest ++ ['\n'])).reverse = '\n' :: (rest.reverse ++ [c]) := by simp
    unfold pyStrip
    rw [List.dropWhile_cons]
    simp only [hws, if_true]
    rw [List.cons_append, List.dropWhile_cons]
    simp only [hc, Bool.false_eq_true, if_false]
    rw [hrva, List.dropWhile_cons]
    simp only [hws, if_true]
    rw [dropWhile_ws_b64 _ hrev2]
    simp

/-- The slice `output[start:stop]` computed by the helper on a wrapped
payload: the region strictly between the two sentinels. -/
lemma slice_wrap (enc : List Char) :
    (((wrapPayload enc).drop 12).take (enc.length + 14 - 12)) = '\n' :: (enc ++ ['\n']) := by
  have hd : (wrapPayload enc).drop 12 = '\n' :: (enc ++ '\n' :: sentEnd) := rfl
  have h2 : enc.length + 14 - 12 = (enc.length + 1) + 1 := by omega
  rw [hd, h2, List.take_succ_cons]
  congr 1
  rw [take_append_len enc ('\n' :: sentEnd) 1]
  rfl

/-- The missing-file message cannot occur inside a wrapped payload: its
colon occurs in none of the sentinel or payload characters. -/
lemma errNotFound_not_in_wrap (enc : List Char) (h : ∀ c ∈ enc, isB64Pad c = true) :
    strIn errNotFound (wrapPayload enc) = false := by
  rcases Bool.eq_false_or_eq_true (strIn errNotFound (wrapPayload enc)) with ht | ht
  · exfalso
    have hmem : ':' ∈ wrapPayload enc := strIn_mem ht ':' (by decide)
    rw [wrapPayload] at hmem
    rcases List.mem_append.1 hmem with hmem | hmem
    · rcases List.mem_append.1 hmem with hmem | hmem
      · exact absurd hmem (by decide)
      · rcases List.mem_cons.1 hmem with hmem | hmem
        · exact absurd hmem (by decide)
        · exact absurd (h _ hmem) (by decide)
    · exact absurd hmem (by decide)
  · exact ht

/-- One step of the scanning loop: a non-stdout item is skipped. -/
lemma downloadScan_cons_other (item : OutputItem) (rest : List OutputItem)
    (h : (item.type == "stdout") = false) :
    downloadScan (item :: rest) = downloadScan rest := by
  simp only [downloadScan, h, Bool.false_eq_true, if_false]

/-- One step of the scanning loop: a stdout item carrying the missing-file
message aborts with failure. -/
lemma downloadScan_cons_err (d : String) (rest : List OutputItem)
    (h : strIn errNotFound d.data = true) :
    downloadScan (⟨"stdout", d⟩ :: rest) = (false, none) := by
  simp only [downloadScan, h, if_true]
  rfl

/-- One step of the scanning loop: a stdout item missing a sentinel is
skipped. -/
lemma downloadScan_cons_nosent (d : String) (rest : List OutputItem)
    (hne : strIn errNotFound d.data = false)
    (hs : (strIn sentStart d.data && strIn sentEnd d.data) = false) :
    downloadScan (⟨"stdout", d⟩ :: rest) = downloadScan rest := by
  simp only [downloadScan, hne, hs, Bool.false_eq_true, if_false]
  rfl

/-- One step of the scanning loop: a stdout item with both sentinels is
sliced, stripped and decoded; the loop stops either way. -/
lemma downloadScan_cons_found (d : String) (rest : List OutputItem)
    (hne : strIn errNotFound d.data = false)
    (hs1 : strIn sentStart d.data = true)
    (hs2 : strIn sentEnd d.data = true) :
    downloadScan (⟨"stdout", d⟩ :: rest) =
      match b64decode (pyStrip ((d.data.drop ((firstIndexOf? sentStart d.data).getD 0 +
          sentStart.length)).take ((firstIndexOf? sentEnd d.data).getD 0 -
          ((firstIndexOf? sentStart d.data).getD 0 + sentStart.length)))) with
      | some bytes => (true, some bytes)
      | none => (false, none) := by
  simp only [downloadScan, hne, hs1, hs2, Bool.and_self, Bool.false_eq_true, if_false, if_true]
  rfl

/-- Evaluation of the helper's scanning loop on a single stdout item
carrying a wrapped base64 payload: the payload bytes are decoded and
written, and the helper reports success. -/
lemma downloadScan_wrap (bs : List Nat) (hb : ∀ x ∈ bs, x < 256) :
    downloadScan [⟨"stdout", String.mk (wrapPayload (b64encode bs))⟩] = (true, some bs) := by
  have henc := b64encode_mem bs hb
  have h1 := errNotFound_not_in_wrap _ henc
  have h2 := firstIndexOf?_sentStart_wrap (b64encode bs)
  have h3 := firstIndexOf?_sentEnd_wrap _ henc
  have hdata : (String.mk (wrapPayload (b64encode bs))).data = wrapPayload (b64encode bs) := rfl
  have hs1 : strIn sentStart (String.mk (wrapPayload (b64encode bs))).data = true := by
    rw [hdata, strIn, h2]; rfl
  have hs2 : strIn sentEnd (String.mk (wrapPayload (b64encode bs))).data = true := by
    rw [hdata, strIn, h3]; rfl
  have hne : strIn errNotFound (String.mk (wrapPayload (b64encode bs))).data = false := by
    rw [hdata]; exact h1
  rw [downloadScan_cons_found _ _ hne hs1 hs2]
  rw [hdata, h2, h3]
  simp only [Option.getD_some, Nat.zero_add]
  rw [show sentStart.length = 12 from rfl, slice_wrap, pyStrip_wrap _ henc,
    b64decode_b64encode bs hb]

/-- The helper's extraction-and-decode logic on one captured stdout block
(lines 148-153 of `6-example-data-visualization.py`): slice strictly
between the first occurrences of the two sentinels, strip whitespace,
base64-decode; `none` when a sentinel is absent or decoding fails. -/
def extractPayload (output : List Char) : Option (List Nat) :=
  if strIn sentStart output && strIn sentEnd output then
    b64decode (pyStrip ((output.drop ((firstIndexOf? sentStart output).getD 0 +
      sentStart.length)).take ((firstIndexOf? sentEnd output).getD 0 -
      ((firstIndexOf? sentStart output).getD 0 + sentStart.length))))
  else none

/-- Evaluation of `extractPayload` when both sentinels are present. -/
lemma extractPayload_eval (output : List Char)
    (hs1 : strIn sentStart output = true) (hs2 : strIn sentEnd output = true) :
    extractPayload output =
      b64decode (pyStrip ((output.drop ((firstIndexOf? sentStart output).getD 0 +
        sentStart.length)).take ((firstIndexOf? sentEnd output).getD 0 -
        ((firstIndexOf? sentStart output).getD 0 + sentStart.length)))) := by
  simp only [extractPayload, hs1, hs2, Bool.and_self, if_true]

/-- The scanning loop fails when no stdout item carries both sentinels. -/
lemma downloadScan_nosent_all (outs : List OutputItem)
    (h : ∀ item ∈ outs, item.type = "stdout" →
      (strIn sentStart item.data.data && strIn sentEnd item.data.data) = false) :
    downloadScan outs = (false, none) := by
  induction outs with
  | nil => rfl
  | cons item rest ih =>
    have ihr : downloadScan rest = (false, none) :=
      ih (fun i hi => h i (List.mem_cons_of_mem _ hi))
    by_cases ht : item.type = "stdout"
    · obtain ⟨ty, da⟩ := item
      simp only at ht
      subst ht
      rcases Bool.eq_false_or_eq_true (strIn errNotFound da.data) with he | he
      · exact downloadScan_cons_err da rest he
      · rw [downloadScan_cons_nosent da rest he
          (h ⟨"stdout", da⟩ (List.mem_cons_self _ _) rfl)]
        exact ihr
    · rw [downloadScan_cons_other item rest (beq_eq_false_iff_ne.mpr ht)]
      exact ihr

end Cognitora

namespace Cognitora

/-- Claim C6. On an execution result whose single stdout block is the wrapped
base64 encoding of some bytes, `download_file_from_sandbox` writes exactly
the base64-decoding of that payload to the destination and returns `True`;
on a result whose stdout contains `"ERROR: File not found"` it returns
`False` without writing any file (the written bytes are modelled by the
second component). -/
theorem C6_download_success_and_missing :
    (∀ (bs : List Nat), (∀ x ∈ bs, x < 256) → ∀ (st : String) (t : Option Nat),
      download_file_from_sandbox (Except.ok
        ⟨st, [⟨"stdout", String.mk (wrapPayload (b64encode bs))⟩], t⟩) = (true, some bs) ∧
      b64decode (b64encode bs) = some bs) ∧
    (∀ (d : String) (st : String) (t : Option Nat), strIn errNotFound d.data = true →
      download_file_from_sandbox (Except.ok ⟨st, [⟨"stdout", d⟩], t⟩) = (false, none)) := by
  constructor
  · intro bs hb st t
    exact ⟨downloadScan_wrap bs hb, b64decode_b64encode bs hb⟩
  · intro d st t hd
    exact downloadScan_cons_err d [] hd

/-- Witness for C6: the bytes `[72, 105]` round-trip through the sandbox
channel, and a missing-file output downloads nothing. -/
theorem C6_witness :
    download_file_from_sandbox (Except.ok ⟨"completed",
      [⟨"stdout", String.mk (wrapPayload (b64encode [72, 105]))⟩], none⟩) =
      (true, some [72, 105]) ∧
    download_file_from_sandbox (Except.ok ⟨"completed",
      [⟨"stdout", "ERROR: File not found\n"⟩], none⟩) = (false, none) := by
  constructor
  · exact ((C6_download_success_and_missing.1 [72, 105] (by decide) "completed" none)).1
  · exact C6_download_success_and_missing.2 "ERROR: File not found\n" "completed" none
      (by decide)

/-- Claim C7. Round trip: for every byte sequence (empty and newline bytes
included), base64-encoding, wrapping between the sentinel lines, and
applying the helper's extraction logic reproduces the original bytes. -/
theorem C7_roundtrip (bs : List Nat) (hb : ∀ x ∈ bs, x < 256) :
    extractPayload (wrapPayload (b64encode bs)) = some bs := by
  have henc := b64encode_mem bs hb
  have h2 := firstIndexOf?_sentStart_wrap (b64encode bs)
  have h3 := firstIndexOf?_sentEnd_wrap _ henc
  have hs1 : strIn sentStart (wrapPayload (b64encode bs)) = true := by
    rw [strIn, h2]; rfl
  have hs2 : strIn sentEnd (wrapPayload (b64encode bs)) = true := by
    rw [strIn, h3]; rfl
  rw [extractPayload_eval _ hs1 hs2, h2, h3]
  simp only [Option.getD_some, Nat.zero_add]
  rw [show sentStart.length = 12 from rfl, slice_wrap, pyStrip_wrap _ henc,
    b64decode_b64encode bs hb]

/-- Witness for C7 at the empty byte sequence and at bytes containing a
newline (10) and a NUL (0). -/
theorem C7_witness :
    extractPayload (wrapPayload (b64encode [])) = some [] ∧
    extractPayload (wrapPayload (b64encode [10, 13, 0])) = some [10, 13, 0] :=
  ⟨C7_roundtrip [] (by decide), C7_roundtrip [10, 13, 0] (by decide)⟩

/-- Claim C8. `download_file_from_sandbox` always returns a pair (no
exception escapes: raised exceptions are the `Except.error` case), and in
each failure mode — raised remote call, missing file, sentinels absent from
every stdout item, invalid base64 payload — the boolean is `False` and
nothing is written. -/
theorem C8_total_and_failures :
    (∀ remote : Except String ExecutionResult, ∃ (b : Bool) (w : Option (List Nat)),
      download_file_from_sandbox remote = (b, w)) ∧
    (∀ e : String, download_file_from_sandbox (Except.error e) = (false, none)) ∧
    (∀ (st : String) (t : Option Nat) (outs : List OutputItem),
      (∀ item ∈ outs, item.type = "stdout" →
        (strIn sentStart item.data.data && strIn sentEnd item.data.data) = false) →
      download_file_from_sandbox (Except.ok ⟨st, outs, t⟩) = (false, none)) ∧
    (∀ (st : String) (t : Option Nat) (d : String), strIn errNotFound d.data = true →
      download_file_from_sandbox (Except.ok ⟨st, [⟨"stdout", d⟩], t⟩) = (false, none)) ∧
    (∀ (st : String) (t : Option Nat) (d : String),
      strIn errNotFound d.data = false →
      strIn sentStart d.data = true → strIn sentEnd d.data = true →
      b64decode (pyStrip ((d.data.drop ((firstIndexOf? sentStart d.data).getD 0 +
        sentStart.length)).take ((firstIndexOf? sentEnd d.data).getD 0 -
        ((firstIndexOf? sentStart d.data).getD 0 + sentStart.length)))) = none →
      download_file_from_sandbox (Except.ok ⟨st, [⟨"stdout", d⟩], t⟩) = (false, none)) := by
  refine ⟨fun remote => ⟨_, _, rfl⟩, fun e => rfl, ?_, ?_, ?_⟩
  · intro st t outs h
    exact downloadScan_nosent_all outs h
  · intro st t d hd
    exact downloadScan_cons_err d [] hd
  · intro st t d hne hs1 hs2 hdec
    show downloadScan _ = _
    rw [downloadScan_cons_found d [] hne hs1 hs2, hdec]

/-- Witness for C8: each failure mode at a concrete input. -/
theorem C8_witness :
    download_file_from_sandbox (Except.error "connection reset") = (false, none) ∧
    download_file_from_sandbox (Except.ok ⟨"completed",
      [⟨"stdout", "hello world"⟩], none⟩) = (false, none) ∧
    download_file_from_sandbox (Except.ok ⟨"completed",
      [⟨"stdout", "ERROR: File not found"⟩], none⟩) = (false, none) ∧
    download_file_from_sandbox (Except.ok ⟨"completed",
      [⟨"stdout", "BASE64_START\nA\nBASE64_END"⟩], none⟩) = (false, none) := by
  refine ⟨C8_total_and_failures.2.1 "connection reset", ?_, ?_, ?_⟩
  · exact C8_total_and_failures.2.2.1 "completed" none [⟨"stdout", "hello world"⟩]
      (by decide)
  · exact C8_total_and_failures.2.2.2.1 "completed" none "ERROR: File not found" (by decide)
  · exact C8_total_and_failures.2.2.2.2 "completed" none "BASE64_START\nA\nBASE64_END"
      (by decide) (by decide) (by decide) (by decide)

/-- Claim C10. The helper never inspects the execution result's status: for
identical outputs and any two statuses (and execution times) the result —
returned boolean and written bytes — is identical; in particular a valid
payload attached to a `"failed"`-status result is still decoded and
written. -/
theorem C10_status_ignored :
    (∀ (outs : List OutputItem) (st1 st2 : String) (t1 t2 : Option Nat),
      download_file_from_sandbox (Except.ok ⟨st1, outs, t1⟩) =
        download_file_from_sandbox (Except.ok ⟨st2, outs, t2⟩)) ∧
    (∀ (bs : List Nat), (∀ x ∈ bs, x < 256) →
      download_file_from_sandbox (Except.ok ⟨"failed",
        [⟨"stdout", String.mk (wrapPayload (b64encode bs))⟩], none⟩) = (true, some bs)) := by
  constructor
  · intro outs _ _ _ _; rfl
  · intro bs hb
    exact downloadScan_wrap bs hb

/-- Witness for C10: a failed-status result still yields a written file. -/
theorem C10_witness :
    download_file_from_sandbox (Except.ok ⟨"failed",
      [⟨"stdout", String.mk (wrapPayload (b64encode [1, 2, 255]))⟩], none⟩) =
      (true, some [1, 2, 255]) :=
  C10_status_ignored.2 [1, 2, 255] (by decide)

end Cognitora
